import Mathlib

set_option maxRecDepth 100000

/-!
Verification of the fm-dx-client background controller
(`src/fm_dx_client/__main__.py`, class `AsyncioController` and its helpers).

The Python source is shallowly embedded: pure helpers become Lean functions,
the controller's mutable attributes become an explicit `Ctrl` state record,
and each loop body or handler becomes a state-transition function whose
interactions with the outside world (socket outcomes, subprocess spawn
results, send failures) are passed in as explicit outcome parameters.
Python floats are modelled exactly as IEEE-754 binary64 values represented
by dyadic rationals, with round-to-nearest-even rounding after parsing and
after each arithmetic operation, matching CPython semantics on the reals
reachable here (no overflow/subnormals arise in the FM band range).
-/

namespace FmDxClient

/-! ## Exact binary64 (Python `float`) model

Exact rational arithmetic on unnormalised `Int`-pair fractions.  (Lean's
`Rat` normalises with `Nat.gcd`, whose well-founded recursion the kernel
cannot reduce, so `decide` would get stuck; these fractions use only
`+`, `*`, division-free comparisons and integer division, all of which the
kernel evaluates.)  Every constructor below keeps the denominator
positive. -/

structure Frac where
  num : Int
  den : Int

def Frac.ofInt (n : Int) : Frac := ⟨n, 1⟩

def Frac.mul (a b : Frac) : Frac := ⟨a.num * b.num, a.den * b.den⟩

def Frac.add (a b : Frac) : Frac := ⟨a.num * b.den + b.num * a.den, a.den * b.den⟩

def Frac.sub (a b : Frac) : Frac := ⟨a.num * b.den - b.num * a.den, a.den * b.den⟩

def Frac.neg (a : Frac) : Frac := ⟨-a.num, a.den⟩

/-- Division, valid when `b` is positive (the only case used here). -/
def Frac.div (a b : Frac) : Frac := ⟨a.num * b.den, a.den * b.num⟩

/-- `a < b`, assuming positive denominators. -/
def Frac.lt (a b : Frac) : Bool := a.num * b.den < b.num * a.den

/-- `a ≤ b`, assuming positive denominators. -/
def Frac.le (a b : Frac) : Bool := a.num * b.den ≤ b.num * a.den

def Frac.isZero (a : Frac) : Bool := a.num = 0

def Frac.isNeg (a : Frac) : Bool := a.num < 0

def Frac.floor (a : Frac) : Int := Int.fdiv a.num a.den

/-- `2 ^ e` as a fraction, for an integer exponent. -/
def fpow2 (e : Int) : Frac :=
  if 0 ≤ e then ⟨((2 : Nat) ^ e.toNat : Nat), 1⟩ else ⟨1, ((2 : Nat) ^ (-e).toNat : Nat)⟩

/-- `10 ^ e` as a fraction, for an integer exponent. -/
def fpow10 (e : Int) : Frac :=
  if 0 ≤ e then ⟨((10 : Nat) ^ e.toNat : Nat), 1⟩ else ⟨1, ((10 : Nat) ^ (-e).toNat : Nat)⟩

/-- Fuel-driven base-2 logarithm on ℕ (kernel-reducible, unlike `Nat.log2`
whose well-founded recursion does not evaluate inside `decide`). -/
def natLog2Aux : Nat → Nat → Nat
  | 0, _ => 0
  | fuel + 1, n => if n ≤ 1 then 0 else natLog2Aux fuel (n / 2) + 1

def natLog2 (n : Nat) : Nat := natLog2Aux n n

/-- Floor of the base-2 logarithm of a positive fraction, computed from
`natLog2` of numerator and denominator with a one-step fix-up. -/
def fracLog2 (q : Frac) : Int :=
  let e0 : Int := (natLog2 q.num.toNat : Int) - (natLog2 q.den.toNat : Int)
  let e1 : Int := if q.lt (fpow2 e0) then e0 - 1 else e0
  if (fpow2 (e1 + 1)).le q then e1 + 1 else e1

/-- Round a fraction to the nearest integer, ties to even. -/
def roundNearestEven (q : Frac) : Int :=
  let f : Int := q.floor
  let r : Frac := q.sub (Frac.ofInt f)
  if r.lt ⟨1, 2⟩ then f
  else if Frac.lt ⟨1, 2⟩ r then f + 1
  else if f % 2 = 0 then f else f + 1

/-- Round a positive fraction to the nearest binary64 value
(53-bit significand, round-to-nearest-even). -/
def roundPosToDouble (q : Frac) : Frac :=
  let e : Int := fracLog2 q
  let scale : Int := 52 - e
  let m : Int := roundNearestEven (q.mul (fpow2 scale))
  (Frac.ofInt m).mul (fpow2 (-scale))

/-- Round a fraction to the nearest binary64 value. Models the rounding
CPython performs when parsing a float literal and after `*`. -/
def roundToDouble (q : Frac) : Frac :=
  if q.isZero then ⟨0, 1⟩
  else if q.isNeg then (roundPosToDouble q.neg).neg
  else roundPosToDouble q

/-- Binary64 multiplication: exact product, then one rounding. -/
def fmul (a b : Frac) : Frac := roundToDouble (a.mul b)

/-- Python `int(x)` on a float: truncation toward zero
(`Int.tdiv` is T-division). -/
def pyTruncToInt (q : Frac) : Int := Int.tdiv q.num q.den

/-! ## Python `float(str)` / `int(str)` literal parsing

Models CPython's string-to-float conversion on ASCII input: optional
surrounding whitespace, optional sign, decimal digits with underscores
between digits, optional fractional part, optional exponent part.
(`inf`/`nan` literals are not modelled; they are rejected at parse here,
while CPython accepts them and then fails the FM-band range check; the
composed `mhz_to_khz` result is `None` either way.) -/

/-- Characters Python strips around a numeric literal. -/
def isPyWs (c : Char) : Bool :=
  c = ' ' || c = '\t' || c = '\n' || c = '\r' || c = '\x0b' || c = '\x0c'

/-- Strip leading and trailing whitespace. -/
def trimWsChars (cs : List Char) : List Char :=
  ((cs.dropWhile isPyWs).reverse.dropWhile isPyWs).reverse

/-- Models `s.replace(",", ".")` from `mhz_to_khz` (single-char pattern,
so it is a character map). -/
def commaToDot (cs : List Char) : List Char :=
  cs.map (fun c => if c = ',' then '.' else c)

/-- Consume a run of decimal digits, allowing a single underscore between
two digits (CPython literal grammar). Returns accumulated value, number of
digits consumed, and the rest. Fuel-driven; `fuel = length + 1` suffices. -/
def parseDigitsAux : Nat → Nat → Nat → List Char → Nat × Nat × List Char
  | 0, acc, cnt, cs => (acc, cnt, cs)
  | _ + 1, acc, cnt, [] => (acc, cnt, [])
  | fuel + 1, acc, cnt, c :: cs =>
    if c.isDigit then parseDigitsAux fuel (acc * 10 + (c.toNat - 48)) (cnt + 1) cs
    else if c = '_' then
      match cs with
      | d :: cs' =>
        if d.isDigit then parseDigitsAux fuel (acc * 10 + (d.toNat - 48)) (cnt + 1) cs'
        else (acc, cnt, c :: cs)
      | [] => (acc, cnt, [c])
    else (acc, cnt, c :: cs)

def parseDigits (cs : List Char) : Nat × Nat × List Char :=
  parseDigitsAux (cs.length + 1) 0 0 cs

/-- Optional sign; returns `(sign, rest)` with sign `1` or `-1`. -/
def parseSign (cs : List Char) : Int × List Char :=
  match cs with
  | c :: r => if c = '+' then (1, r) else if c = '-' then (-1, r) else (1, c :: r)
  | [] => (1, [])

/-- Apply a `1`/`-1` sign to a fraction. -/
def applySign (sgn : Int) (m : Frac) : Frac := if sgn < 0 then m.neg else m

/-- Optional exponent part `("e"|"E") [sign] digits`; `none` on a malformed
exponent, `some (0, cs)` when no exponent marker is present. -/
def parseExpPart (cs : List Char) : Option (Int × List Char) :=
  match cs with
  | [] => some (0, [])
  | c :: cs1 =>
    if c = 'e' || c = 'E' then
      let sgnRest : Int × List Char :=
        match cs1 with
        | '+' :: r => (1, r)
        | '-' :: r => (-1, r)
        | _ => (1, cs1)
      match sgnRest.2 with
      | d :: _ =>
        if d.isDigit then
          let pr := parseDigits sgnRest.2
          some (sgnRest.1 * (pr.1 : Int), pr.2.2)
        else none
      | [] => none
    else some (0, c :: cs1)

/-- The fractional part `digits / 10 ^ count` as an exact fraction. -/
def fracPartVal (digits cnt : Nat) : Frac := ⟨(digits : Int), (((10 : Nat) ^ cnt : Nat) : Int)⟩

/-- Apply an optional exponent and require the input to be exhausted. -/
def finishNum (sgn : Int) (mag : Frac) (cs : List Char) : Option Frac :=
  match parseExpPart cs with
  | some (e, rest) => if rest = [] then some (applySign sgn (mag.mul (fpow10 e))) else none
  | none => none

/-- Parse a whitespace-trimmed float literal to its exact decimal value. -/
def parsePyFloatTrimmed (cs : List Char) : Option Frac :=
  let sr := parseSign cs
  match sr.2 with
  | [] => none
  | c :: rest =>
    if c = '.' then
      match rest with
      | d :: _ =>
        if d.isDigit then
          let fr := parseDigits rest
          finishNum sr.1 (fracPartVal fr.1 fr.2.1) fr.2.2
        else none
      | [] => none
    else if c.isDigit then
      let ir := parseDigits sr.2
      match ir.2.2 with
      | '.' :: cs3 =>
        match cs3 with
        | d :: _ =>
          if d.isDigit then
            let fr := parseDigits cs3
            finishNum sr.1 ((Frac.ofInt ir.1).add (fracPartVal fr.1 fr.2.1)) fr.2.2
          else finishNum sr.1 (Frac.ofInt ir.1) cs3
        | [] => finishNum sr.1 (Frac.ofInt ir.1) []
      | other => finishNum sr.1 (Frac.ofInt ir.1) other
    else none

/-- Python `float(s)`: trim, parse the exact decimal value, then round to
the nearest binary64. `none` models `ValueError`. -/
def pyFloat (s : String) : Option Frac :=
  (parsePyFloatTrimmed (trimWsChars s.data)).map roundToDouble

/-- Python `int(s)` on a decimal string (used for `int(command[1:])`). -/
def pyIntOfString (s : String) : Option Int :=
  let cs := trimWsChars s.data
  let sgn : Int × List Char :=
    match cs with
    | '+' :: r => (1, r)
    | '-' :: r => (-1, r)
    | _ => (1, cs)
  match sgn.2 with
  | c :: _ =>
    if c.isDigit then
      let pr := parseDigits sgn.2
      if pr.2.2 = [] then some (sgn.1 * (pr.1 : Int)) else none
    else none
  | [] => none

/-! ## `mhz_to_khz` (source lines 383-396) -/

/-- `MIN_FREQ_MHZ = 87.5` — exactly representable in binary64. -/
def MIN_FREQ_MHZ : Frac := ⟨875, 10⟩

/-- `MAX_FREQ_MHZ = 108.0` — exactly representable in binary64. -/
def MAX_FREQ_MHZ : Frac := ⟨108, 1⟩

/-- A Python value as found in a parsed inbound JSON record. -/
inductive PyVal
  | str (s : String)
  | num (q : ℚ)
  | bool (b : Bool)
  | null
deriving DecidableEq

def PyVal.isStr : PyVal → Bool
  | .str _ => true
  | _ => false

/-- Embedding of `mhz_to_khz(mhz_str)`: converts a frequency string (MHz,
comma or dot decimal separator) to kHz, validating the FM band range;
`none` for any non-string input and any parse failure. -/
def mhz_to_khz (v : PyVal) : Option Int :=
  match v with
  | PyVal.str s =>
    match pyFloat (String.mk (commaToDot s.data)) with
    | some mhz =>
      if MIN_FREQ_MHZ.le mhz && mhz.le MAX_FREQ_MHZ then
        some (pyTruncToInt (fmul mhz (Frac.ofInt 1000)))
      else none
    | none => none
  | _ => none

/-! ## Update events and inbound metadata processing

`put_update(message_type, data)` places `(type, payload)` tuples on the
update queue; the tags are modelled as a closed inductive. -/

/-- A parsed inbound JSON record: string keys to scalar values. -/
abbrev Record := List (String × PyVal)

inductive Update
  | data (record : Record)
  | status (msg : String)
  | streamStatus (msg : String)
  | currentFreq (khz : Int)
  | error (msg : String)
  | closed
deriving DecidableEq

def Update.isStreamStatus : Update → Bool
  | .streamStatus _ => true
  | _ => false

/-- One inbound text-WebSocket message: either JSON that parsed to a
record, or malformed input (`json.JSONDecodeError`). -/
inductive TextMsg
  | json (record : Record)
  | malformed

/-- `data.get("freq")`: `None` when the key is absent. -/
def pyGet (rec : Record) (k : String) : PyVal :=
  match rec.find? (fun kv => kv.1 = k) with
  | some kv => kv.2
  | none => PyVal.null

/-- Embedding of the per-message body of the text receive loop
(source lines 851-865): emit the full `Data` record, then a separate
`CurrentFrequency` update iff `mhz_to_khz(data.get("freq"))` is not
`None`; malformed JSON yields only an error update. -/
def processTextMessage : TextMsg → List Update
  | .malformed => [.error "Invalid JSON received (Text WS)."]
  | .json rec =>
    match mhz_to_khz (pyGet rec "freq") with
    | some khz => [.data rec, .currentFreq khz]
    | none => [.data rec]

/-- Embedding of `is_unexpected_exit(return_code)` (source lines 362-373)
on a POSIX platform: `None` and `0` are not unexpected, `-SIGTERM` (-15)
and `-SIGKILL` (-9) are graceful, everything else is unexpected. -/
def is_unexpected_exit (rc : Option Int) : Bool :=
  match rc with
  | none => false
  | some c =>
    if c = 0 then false
    else if c = -15 || c = -9 then false
    else true

/-! ## Controller state

`Ctrl` collects the `AsyncioController` attributes the claims depend on.
`terminated` records the pids on which `_kill_process` has been invoked
(the process "marked for termination"), and `nextPid` models the OS
handing out a fresh pid to every spawn. -/

/-- One external media process (`asyncio` subprocess). -/
structure Proc where
  pid : Nat
  returncode : Option Int
  stdinClosing : Bool
deriving DecidableEq

/-- The metadata WebSocket as seen by the command forwarder: only its
`close_code` matters (`None` while the connection is open). -/
structure TextWs where
  closeCode : Option Nat
deriving DecidableEq

structure Ctrl where
  running : Bool
  isRestreamOnly : Bool
  streamEnabled : Bool
  ffplayProc : Option Proc
  ffmpegProc : Option Proc
  textWsForCommands : Option TextWs
  terminated : List Nat
  nextPid : Nat
  textUri : String
  audioUri : String
  streamPort : Nat
deriving DecidableEq

/-- A convenient fully-explicit initial state (fresh controller after
`start()`): running, no processes, nothing terminated. -/
def initialCtrl : Ctrl :=
  { running := true, isRestreamOnly := false, streamEnabled := true,
    ffplayProc := none, ffmpegProc := none, textWsForCommands := none,
    terminated := [], nextPid := 0, textUri := "ws://example/text",
    audioUri := "ws://example/audio", streamPort := 8080 }

/-! ## Command forwarding (`_handle_gui_commands`, source lines 761-813) -/

/-- Environment outcome of `await ws.send(command)`. -/
inductive SendOutcome
  | ok
  | connClosed
  | sendErr (msg : String)

/-- `command.startswith("T")` (single-character prefix, so a head test). -/
def startsWithT (cmd : String) : Bool :=
  match cmd.data with
  | 'T' :: _ => true
  | _ => false

/-- `command[1:]` — Python slicing is per character. -/
def dropFirstChar (cmd : String) : String := String.mk (cmd.data.drop 1)

/-- Embedding of one dequeued command's handling: returns the new state,
the updates emitted, and whether `ws.send` was invoked.  The command is
never re-queued (the source calls `task_done()` and moves on). -/
def handleGuiCommand (s : Ctrl) (cmd : String) (o : SendOutcome) :
    Ctrl × List Update × Bool :=
  match s.textWsForCommands with
  | some ws =>
    if ws.closeCode = none then
      if startsWithT cmd then
        match o with
        | .ok =>
          match pyIntOfString (dropFirstChar cmd) with
          | some khz => (s, [.currentFreq khz], true)
          | none => (s, [], true)
        | .connClosed =>
          ({ s with textWsForCommands := none },
           [.status "Text WS closed, cannot send cmd."], true)
        | .sendErr m => (s, [.error ("Send command failed: " ++ m)], true)
      else (s, [], false)
    else if startsWithT cmd then
      (s, [.status "Text WS not connected, cannot tune."], false)
    else (s, [], false)
  | none =>
    if startsWithT cmd then
      (s, [.status "Text WS not connected, cannot tune."], false)
    else (s, [], false)

/-! ## Text/metadata channel (`_handle_text_websocket`, source lines 815-909) -/

/-- Close-reason rendering from the `ConnectionClosed` handler: the code
formats `Code/Reason` only when `e_cls.code` is truthy. -/
def closeReasonStr (code : Option Nat) (reason : String) : String :=
  match code with
  | some c => if c = 0 then "Closed unexpectedly"
              else "Code: " ++ toString c ++ ", Reason: " ++ reason
  | none => "Closed unexpectedly"

/-- Environment outcome of one connection attempt of the text channel. -/
inductive TextConnOutcome
  | recvEnd (msgs : List TextMsg)
  | recvClosed (msgs : List TextMsg) (code : Option Nat) (reason : String)
  | invalidURI
  | refused
  | timedOut
  | osError (msg : String)
  | otherError (msg : String)
  | cancelled

/-- Whether the iteration falls through to the next reconnect attempt
(`InvalidURI` breaks after clearing the running flag; cancellation breaks). -/
def iterContinues : TextConnOutcome → Bool
  | .invalidURI => false
  | .cancelled => false
  | _ => true

/-- The `finally` block's retry status, guarded by the running flag. -/
def retryUpd (s : Ctrl) : List Update :=
  if s.running then [.status "Text WS disconnected. Retrying..."] else []

/-- Embedding of one iteration of the text-WebSocket loop body (reconnect
delay, connect attempt, receive loop, exception handling, `finally`).
Returns the new state, the updates emitted, and whether the loop falls
through to another iteration. -/
def textWsIteration (s : Ctrl) (o : TextConnOutcome) :
    Ctrl × List Update × Bool :=
  let s0 : Ctrl := { s with textWsForCommands := none }
  let connectUpd : List Update := [.status "Connecting Text WS..."]
  let connectedUpd : List Update := [.status "Text WS connected."]
  match o with
  | .recvEnd msgs =>
    (s0, connectUpd ++ connectedUpd ++ msgs.flatMap processTextMessage ++ retryUpd s0, true)
  | .recvClosed msgs code reason =>
    (s0, connectUpd ++ connectedUpd ++ msgs.flatMap processTextMessage ++
      [.status ("Text WS closed (" ++ closeReasonStr code reason ++ ")")] ++ retryUpd s0, true)
  | .invalidURI =>
    let s1 : Ctrl := { s0 with running := false }
    (s1, connectUpd ++ [.error ("Fatal: Invalid Text URI: " ++ s.textUri)], false)
  | .refused =>
    (s0, connectUpd ++ [.status "Text WS connection refused."] ++ retryUpd s0, true)
  | .timedOut =>
    (s0, connectUpd ++ [.status "Text WS connection timeout."] ++ retryUpd s0, true)
  | .osError m =>
    (s0, connectUpd ++ [.error ("Text WS OS Error: " ++ m)] ++ retryUpd s0, true)
  | .otherError m =>
    (s0, connectUpd ++ [.error ("Text WS Error: " ++ m)] ++ retryUpd s0, true)
  | .cancelled => (s0, [], false)

/-- Result of running the channel loop over a sequence of connection
outcomes: final state, updates, and number of connection attempts made. -/
structure LoopRun where
  state : Ctrl
  updates : List Update
  attempts : Nat
deriving DecidableEq

/-- The `while self.app_running_event.is_set()` loop of the text channel:
each entered iteration performs exactly one connection attempt. -/
def textWsLoop : Ctrl → List TextConnOutcome → LoopRun
  | s, [] => ⟨s, [], 0⟩
  | s, o :: os =>
    if s.running then
      let step := textWsIteration s o
      if step.2.2 then
        let rest := textWsLoop step.1 os
        ⟨rest.state, step.2.1 ++ rest.updates, rest.attempts + 1⟩
      else ⟨step.1, step.2.1, 1⟩
    else ⟨s, [], 0⟩

/-- `_run_asyncio_loop` (source lines 505-574): the controller thread runs
the task body and, in its final `finally` block, emits `closed` exactly
once as the last action before the thread exits. -/
def controllerRunUpdates (body : List Update) : List Update :=
  body ++ [Update.closed]

/-! ## Audio channel (`_play_audio_stream`, source lines 911-1178) -/

/-- Environment outcome of `asyncio.create_subprocess_exec`. -/
inductive SpawnOutcome
  | ok
  | fileNotFound
  | spawnErr (msg : String)

/-- Where control flows after a spawn section. -/
inductive Flow
  | proceed
  | retryConn
  | fatalReturn
deriving DecidableEq

/-- Embedding of the ffplay startup section (source lines 967-997):
skipped in restream-only mode; a missing `ffplay` executable clears the
running flag and returns from the task (fatal); any other spawn error
retries the connection loop. -/
def startFfplaySection (s : Ctrl) (o : SpawnOutcome) :
    Ctrl × List Update × Flow :=
  let s0 : Ctrl := { s with ffplayProc := none }
  if s.isRestreamOnly then (s0, [], .proceed)
  else
    let us : List Update := [.status "Starting audio player (ffplay)..."]
    match o with
    | .ok =>
      ({ s0 with ffplayProc := some ⟨s0.nextPid, none, false⟩, nextPid := s0.nextPid + 1 },
       us, .proceed)
    | .fileNotFound =>
      ({ s0 with running := false },
       us ++ [.error "Fatal: 'ffplay' command not found. Playback disabled."], .fatalReturn)
    | .spawnErr m =>
      (s0, us ++ [.error ("Failed to start ffplay: " ++ m)], .retryConn)

/-- Embedding of the ffmpeg startup section (source lines 999-1028):
skipped when streaming is disabled; a missing `ffmpeg` executable only
disables streaming for the session (an error update, no shutdown, the
loop proceeds); other spawn errors likewise. -/
def startFfmpegSection (s : Ctrl) (o : SpawnOutcome) :
    Ctrl × List Update × Flow :=
  let s0 : Ctrl := { s with ffmpegProc := none }
  if s.streamEnabled then
    let us : List Update := [.status "Starting AAC encoder (ffmpeg)..."]
    match o with
    | .ok =>
      ({ s0 with ffmpegProc := some ⟨s0.nextPid, none, false⟩, nextPid := s0.nextPid + 1 },
       us, .proceed)
    | .fileNotFound =>
      ({ s0 with streamEnabled := false },
       us ++ [.error "'ffmpeg' not found. Cannot stream."], .proceed)
    | .spawnErr m =>
      ({ s0 with streamEnabled := false },
       us ++ [.error ("Failed to start ffmpeg: " ++ m ++ ". Streaming disabled.")], .proceed)
  else (s0, [], .proceed)

/-- Embedding of the process-exit checks at the top of the inner
receive-and-pipe loop (source lines 1031-1062). Returns the new state,
updates, and whether the inner loop breaks (forcing reconnect/respawn). -/
def audioProcCheck (s : Ctrl) : Ctrl × List Update × Bool :=
  let ffplayRc : Option Int :=
    if s.isRestreamOnly then none
    else match s.ffplayProc with
      | some p => p.returncode
      | none => none
  match ffplayRc with
  | some c =>
    let us : List Update :=
      if is_unexpected_exit (some c) then
        [.error ("ffplay exited unexpectedly (code " ++ toString c ++ ").")]
      else [.status "ffplay stopped."]
    ({ s with ffplayProc := none }, us, true)
  | none =>
    let ffmpegRc : Option Int :=
      if s.streamEnabled then
        match s.ffmpegProc with
        | some p => p.returncode
        | none => none
      else none
    match ffmpegRc with
    | some c =>
      let us : List Update :=
        if is_unexpected_exit (some c) then
          [.error ("ffmpeg exited unexpectedly (code " ++ toString c ++ "). Streaming stopped.")]
        else [.streamStatus "Stream: Encoder stopped."]
      ({ s with streamEnabled := false, ffmpegProc := none }, us, false)
    | none => (s, [], false)

/-- Environment outcome of a `stdin.write` + `drain` on one process. -/
inductive WriteOutcome
  | ok
  | pipeErr (msg : String)

/-- The process the ffplay write targets: referenced, not restream-only,
stdin not closing (the guard on source line 1071). -/
def playWriteTarget (s : Ctrl) : Option Proc :=
  if s.isRestreamOnly then none
  else match s.ffplayProc with
    | some p => if p.stdinClosing then none else some p
    | none => none

/-- The process the ffmpeg write targets (the guard on source line 1081). -/
def encWriteTarget (s : Ctrl) : Option Proc :=
  if s.streamEnabled then
    match s.ffmpegProc with
    | some p => if p.stdinClosing then none else some p
    | none => none
  else none

/-- The ffmpeg half of the frame-piping section (source lines 1081-1091):
a broken ffmpeg pipe disables streaming and kills the transcoder only. -/
def writeFfmpegPart (s : Ctrl) (oEnc : WriteOutcome) (acc : List Nat) :
    Ctrl × List Update × List Nat :=
  match encWriteTarget s with
  | some p =>
    match oEnc with
    | .ok => (s, [], acc ++ [p.pid])
    | .pipeErr m =>
      ({ s with streamEnabled := false, ffmpegProc := none,
                terminated := p.pid :: s.terminated },
       [.error ("ffmpeg stdin pipe broken (" ++ m ++ "). Stopping stream.")],
       acc ++ [p.pid])
  | none => (s, [], acc)

/-- Embedding of the frame-piping section (source lines 1069-1091):
write the received frame to each still-referenced process's stdin.
Returns the new state, updates, and the pids written to.  A broken ffplay
pipe `continue`s the loop (skipping the ffmpeg write). -/
def writeAudioChunk (s : Ctrl) (oPlay oEnc : WriteOutcome) :
    Ctrl × List Update × List Nat :=
  match playWriteTarget s with
  | some p =>
    match oPlay with
    | .pipeErr _ => (s, [], [p.pid])
    | .ok => writeFfmpegPart s oEnc [p.pid]
  | none => writeFfmpegPart s oEnc []

/-! ## Broadcast relay (`_relay_aac_data` lines 1376-1457, sink creation
in `_handle_stream_request` line 1327: `asyncio.Queue(maxsize=10)`) -/

/-- Per-client sink capacity (`asyncio.Queue(maxsize=10)`). -/
def AAC_CLIENT_QUEUE_MAXSIZE : Nat := 10

/-- Embedding of the per-sink delivery of one chunk (source lines
1412-1426): `put_nowait`; on `QueueFull` evict the oldest chunk
(`get_nowait`) and retry the put; if still full, drop the chunk for this
sink.  The queue is FIFO: front = oldest. -/
def putClientChunk (cap : Nat) (q : List Nat) (c : Nat) : List Nat :=
  if q.length < cap then q ++ [c]
  else
    let q' := q.tail
    if q'.length < cap then q' ++ [c] else q'

/-- Deliver one chunk to a snapshot (`list(self.aac_clients)`) of the
sink set: each sink is updated independently. -/
def relayChunk (cap : Nat) (sinks : List (List Nat)) (c : Nat) : List (List Nat) :=
  sinks.map (fun q => putClientChunk cap q c)

/-- A never-drained sink receiving a whole chunk sequence. -/
def feedChunks (cap : Nat) (q : List Nat) (cs : List Nat) : List Nat :=
  cs.foldl (putClientChunk cap) q

/-! ## Reconnect timing (source lines 828-836 and 944-952)

Both channels use identical logic: `now = time.monotonic()`; if
`now - last_connect_time < RECONNECT_DELAY_SECONDS` sleep for exactly the
remainder; then set `last_connect_time = time.monotonic()` and connect.
Sleeping is modelled as exact, so the next attempt starts at
`now + sleepFor`. -/

def RECONNECT_DELAY_SECONDS : ℚ := 5

structure ReconnectTiming where
  sleepFor : ℚ
  attemptStart : ℚ

/-- One pass through the reconnection-delay preamble, given the previous
attempt's start time `last` and the current monotonic time `now`. -/
def reconnectIteration (last now : ℚ) : ReconnectTiming :=
  let timeSinceLast := now - last
  if timeSinceLast < RECONNECT_DELAY_SECONDS then
    { sleepFor := RECONNECT_DELAY_SECONDS - timeSinceLast,
      attemptStart := now + (RECONNECT_DELAY_SECONDS - timeSinceLast) }
  else
    { sleepFor := 0, attemptStart := now }

/-! ## Process termination and `stop()` (source lines 470-499, 711-759) -/

/-- `_kill_ffplay`: invoke the termination routine on the referenced
process (mark it terminated) and clear the reference (`_kill_process`
always returns `None`). -/
def killFfplayStep (s : Ctrl) : Ctrl :=
  match s.ffplayProc with
  | some p => { s with ffplayProc := none, terminated := p.pid :: s.terminated }
  | none => s

/-- `_kill_ffmpeg`, identically. -/
def killFfmpegStep (s : Ctrl) : Ctrl :=
  match s.ffmpegProc with
  | some p => { s with ffmpegProc := none, terminated := p.pid :: s.terminated }
  | none => s

/-- Observable actions of `stop()` and `_kill_process`. -/
inductive StopAction
  | putSentinel
  | requestLoopStop
  | joinThread (timeoutSecs : ℚ)
  | closeStdin (pid : Nat)
  | sigterm (pid : Nat)
  | sigkill (pid : Nat)
deriving DecidableEq

/-- Environment outcome of `proc.terminate()`. -/
inductive TermOutcome
  | ok
  | lookupErr
  | termErr

/-- Actions of `_kill_process(proc)` (source lines 711-749): when the
process exists and is still running, close stdin and send SIGTERM; if the
terminate attempt raises (other than `ProcessLookupError`), fall back to
SIGKILL. A process that already exited gets no signals. -/
def killProcessActions (ref : Option Proc) (t : TermOutcome) : List StopAction :=
  match ref with
  | some p =>
    if p.returncode = none then
      [.closeStdin p.pid, .sigterm p.pid] ++
        (match t with
         | .termErr => [.sigkill p.pid]
         | _ => [])
    else []
  | none => []

/-- Embedding of `stop()` (source lines 470-499): when running, clear the
flag, wake the command queue with the sentinel, request the loop stop and
join the thread with a 7-second grace window; in every case finish by
invoking the kill routine on both process references.  Returns the new
state, the grace-phase actions, and the kill-phase actions (performed in
that order). -/
def stopSequence (s : Ctrl) (tPlay tEnc : TermOutcome) :
    Ctrl × List StopAction × List StopAction :=
  let killActs := killProcessActions s.ffplayProc tPlay ++
                  killProcessActions s.ffmpegProc tEnc
  let s' := killFfmpegStep (killFfplayStep { s with running := false })
  if s.running then
    (s', [.putSentinel, .requestLoopStop, .joinThread 7], killActs)
  else
    (s', [], killActs)

/-! ## Supervisor (`_main_async`, source lines 576-699) -/

inductive TaskName
  | cmdListen
  | txtWS
  | audWS
  | aacRelay
  | streamSrv
deriving DecidableEq

def taskNameStr : TaskName → String
  | .cmdListen => "CmdListen"
  | .txtWS => "TxtWS"
  | .audWS => "AudWS"
  | .aacRelay => "AACRelay"
  | .streamSrv => "StreamSrv"

/-- Exception classes the monitor loop branches on; FileNotFoundError is
split by which executable name appears in the message. -/
inductive ExcKind
  | invalidURI
  | fnfFfplay
  | fnfFfmpeg
  | fnfOther
  | addrInUse
  | otherExc (msg : String)
deriving DecidableEq

def excText : ExcKind → String
  | .invalidURI => "InvalidURI"
  | .fnfFfplay => "FileNotFoundError: ffplay"
  | .fnfFfmpeg => "FileNotFoundError: ffmpeg"
  | .fnfOther => "FileNotFoundError"
  | .addrInUse => "OSError: Address already in use"
  | .otherExc m => m

/-- How a monitored task completed. -/
inductive TaskResult
  | cancelled
  | completed
  | exc (e : ExcKind)

/-- The monitor loop's fatality classification (source lines 639-648). -/
def mainIsFatal (s : Ctrl) (t : TaskName) (e : ExcKind) : Bool :=
  (e == ExcKind.invalidURI && !(t == TaskName.streamSrv)) ||
  (match e with
   | .fnfFfplay => t == TaskName.audWS && !s.isRestreamOnly
   | .fnfFfmpeg => t == TaskName.audWS && s.streamEnabled
   | _ => false)

/-- Embedding of one completed-task handling pass of the monitor loop
(source lines 614-677).  Returns the new state, updates, and the task
kinds respawned. -/
def mainAsyncIter (s : Ctrl) (t : TaskName) (r : TaskResult) :
    Ctrl × List Update × List TaskName :=
  match r with
  | .cancelled => (s, [], [])
  | .completed => (s, [], [])
  | .exc e =>
    if t == TaskName.streamSrv && e == ExcKind.addrInUse then
      ({ s with streamEnabled := false },
       [.streamStatus ("Stream Err: Port " ++ toString s.streamPort ++ " in use"),
        .error ("Fatal: Port " ++ toString s.streamPort ++
          " already in use. Streaming disabled.")], [])
    else
      let logUpd : List Update :=
        [.error ("Task " ++ taskNameStr t ++ " failed: " ++ excText e)]
      if mainIsFatal s t e then
        ({ s with running := false },
         logUpd ++ [.error ("Fatal error in " ++ taskNameStr t ++ ". Stopping.")], [])
      else if s.running then
        match t with
        | .txtWS => (s, logUpd, [.txtWS])
        | .audWS => (s, logUpd, [.audWS])
        | .aacRelay => if s.streamEnabled then (s, logUpd, [.aacRelay]) else (s, logUpd, [])
        | .streamSrv =>
          ({ s with streamEnabled := false },
           logUpd ++ [.streamStatus "Stream: Server Failed"], [])
        | .cmdListen => (s, logUpd, [])
      else (s, logUpd, [])

/-! ## Global step relation

Each event is one controller-loop activity; loop-body events only run
while the shared flag is set (every loop re-checks it), whereas the kill
routines and `stop()` also run during teardown. -/

inductive CtrlEvent
  | textIter (o : TextConnOutcome)
  | guiCmd (cmd : String) (o : SendOutcome)
  | spawnPlay (o : SpawnOutcome)
  | spawnEnc (o : SpawnOutcome)
  | procCheck
  | writeChunk (oPlay oEnc : WriteOutcome)
  | monitor (t : TaskName) (r : TaskResult)
  | killPlay
  | killEnc
  | stopCall (tPlay tEnc : TermOutcome)

structure StepResult where
  state : Ctrl
  updates : List Update
  writes : List Nat
  restarts : List TaskName

def ctrlStep (s : Ctrl) (e : CtrlEvent) : StepResult :=
  match e with
  | .killPlay => ⟨killFfplayStep s, [], [], []⟩
  | .killEnc => ⟨killFfmpegStep s, [], [], []⟩
  | .stopCall tp te => ⟨(stopSequence s tp te).1, [], [], []⟩
  | .textIter o =>
    if s.running then
      let r := textWsIteration s o
      ⟨r.1, r.2.1, [], []⟩
    else ⟨s, [], [], []⟩
  | .guiCmd cmd o =>
    if s.running then
      let r := handleGuiCommand s cmd o
      ⟨r.1, r.2.1, [], []⟩
    else ⟨s, [], [], []⟩
  | .spawnPlay o =>
    if s.running then
      let r := startFfplaySection s o
      ⟨r.1, r.2.1, [], []⟩
    else ⟨s, [], [], []⟩
  | .spawnEnc o =>
    if s.running then
      let r := startFfmpegSection s o
      ⟨r.1, r.2.1, [], []⟩
    else ⟨s, [], [], []⟩
  | .procCheck =>
    if s.running then
      let r := audioProcCheck s
      ⟨r.1, r.2.1, [], []⟩
    else ⟨s, [], [], []⟩
  | .writeChunk op oe =>
    if s.running then
      let r := writeAudioChunk s op oe
      ⟨r.1, r.2.1, r.2.2, []⟩
    else ⟨s, [], [], []⟩
  | .monitor t r =>
    if s.running then
      let m := mainAsyncIter s t r
      ⟨m.1, m.2.1, [], m.2.2⟩
    else ⟨s, [], [], []⟩

def ctrlRun : Ctrl → List CtrlEvent → Ctrl
  | s, [] => s
  | s, e :: es => ctrlRun (ctrlStep s e).state es

/-- Does any event of the trace write to a pid already marked terminated
at the time of the write? -/
def writesTerminated : Ctrl → List CtrlEvent → Bool
  | _, [] => false
  | s, e :: es =>
    let r := ctrlStep s e
    r.writes.any (fun pid => decide (pid ∈ s.terminated)) || writesTerminated r.state es

/-- Bookkeeping invariant tying the pid counter, the process references
and the terminated set together: terminated pids are never referenced,
all pids are below the counter, and the two references never alias. -/
def ctrlInv (s : Ctrl) : Prop :=
  (∀ p, s.ffplayProc = some p → p.pid ∉ s.terminated ∧ p.pid < s.nextPid) ∧
  (∀ p, s.ffmpegProc = some p → p.pid ∉ s.terminated ∧ p.pid < s.nextPid) ∧
  (∀ pid ∈ s.terminated, pid < s.nextPid) ∧
  (∀ p q, s.ffplayProc = some p → s.ffmpegProc = some q → p.pid ≠ q.pid)

/-! ## Theorems -/

/-- A character that can participate in the syntax of a Python numeric
literal as `mhz_to_khz` sees it (digits, separators, signs, whitespace).
A string built entirely from characters outside this set is non-numeric:
`float()` raises on it. -/
def numericSyntaxChar (c : Char) : Bool :=
  c.isDigit || c = '.' || c = ',' || c = '+' || c = '-' || isPyWs c

lemma dropWhile_all_false {p : Char → Bool} {cs : List Char}
    (h : ∀ c ∈ cs, p c = false) : cs.dropWhile p = cs := by
  cases cs with
  | nil => rfl
  | cons c rest =>
    have hc : p c = false := h c (List.mem_cons_self c rest)
    simp [List.dropWhile, hc]

lemma trimWs_all_false {cs : List Char}
    (h : ∀ c ∈ cs, isPyWs c = false) : trimWsChars cs = cs := by
  unfold trimWsChars
  rw [dropWhile_all_false h]
  rw [dropWhile_all_false (fun c hc => h c (List.mem_reverse.mp hc))]
  exact List.reverse_reverse cs

lemma commaToDot_all_false {cs : List Char}
    (h : ∀ c ∈ cs, c ≠ ',') : commaToDot cs = cs := by
  unfold commaToDot
  induction cs with
  | nil => rfl
  | cons c rest ih =>
    have hc : c ≠ ',' := h c (List.mem_cons_self c rest)
    simp only [List.map_cons]
    rw [if_neg hc]
    rw [ih (fun d hd => h d (List.mem_cons_of_mem c hd))]

lemma parsePyFloatTrimmed_nonNumeric {cs : List Char}
    (h : ∀ c ∈ cs, numericSyntaxChar c = false) :
    parsePyFloatTrimmed cs = none := by
  cases cs with
  | nil => rfl
  | cons c rest =>
    have hc : numericSyntaxChar c = false := h c (List.mem_cons_self c rest)
    simp only [numericSyntaxChar, Bool.or_eq_false_iff, decide_eq_false_iff_not] at hc
    obtain ⟨⟨⟨⟨⟨hdig, hdot⟩, _⟩, hplus⟩, hminus⟩, _⟩ := hc
    unfold parsePyFloatTrimmed parseSign
    simp only [if_neg hplus, if_neg hminus]
    rw [if_neg hdot, if_neg (by simp [hdig])]

/-- C2: the frequency parser maps `"97.3"` and `"97,3"` to `97300` kHz,
rejects `"86.9"` and `"108.1"` as outside the `[87.5, 108.0]` MHz band,
and rejects every non-numeric string (one containing no digit, decimal
separator, sign or whitespace character). -/
theorem mhz_to_khz_spec :
    mhz_to_khz (PyVal.str "97.3") = some 97300 ∧
    mhz_to_khz (PyVal.str "97,3") = some 97300 ∧
    mhz_to_khz (PyVal.str "86.9") = none ∧
    mhz_to_khz (PyVal.str "108.1") = none ∧
    ∀ s : String, (∀ c ∈ s.data, numericSyntaxChar c = false) →
      mhz_to_khz (PyVal.str s) = none := by
  refine ⟨by decide, by decide, by decide, by decide, ?_⟩
  intro s h
  have hcomma : ∀ c ∈ s.data, c ≠ ',' := by
    intro c hcmem
    have := h c hcmem
    simp only [numericSyntaxChar, Bool.or_eq_false_iff, decide_eq_false_iff_not] at this
    exact this.1.1.1.2
  have hws : ∀ c ∈ s.data, isPyWs c = false := by
    intro c hcmem
    have := h c hcmem
    simp only [numericSyntaxChar, Bool.or_eq_false_iff] at this
    exact this.2
  have hpf : pyFloat (String.mk (commaToDot s.data)) = none := by
    unfold pyFloat
    have htrim : trimWsChars (String.mk (commaToDot s.data)).data = s.data := by
      show trimWsChars (commaToDot s.data) = s.data
      rw [commaToDot_all_false hcomma]
      exact trimWs_all_false hws
    rw [htrim, parsePyFloatTrimmed_nonNumeric h]
    rfl
  simp [mhz_to_khz, hpf]

/-- Witness for `mhz_to_khz_spec`: instantiate the universal non-numeric
conjunct at the concrete string `"abc"`. -/
theorem mhz_to_khz_spec_witness : mhz_to_khz (PyVal.str "abc") = none :=
  mhz_to_khz_spec.2.2.2.2 "abc" (by decide)

/-- C10: the frequency parser is total on non-string inputs — `None`
(missing `"freq"` key), JSON numbers and booleans all map to `None` — and
a record whose `"freq"` field is missing or non-string still yields the
`Data` event but no `CurrentFrequency` event in the receive loop. -/
theorem mhz_to_khz_total_nonstring :
    mhz_to_khz PyVal.null = none ∧
    (∀ q : ℚ, mhz_to_khz (PyVal.num q) = none) ∧
    (∀ b : Bool, mhz_to_khz (PyVal.bool b) = none) ∧
    (∀ rec : Record, (pyGet rec "freq").isStr = false →
      processTextMessage (TextMsg.json rec) = [Update.data rec]) := by
  refine ⟨rfl, fun q => rfl, fun b => rfl, ?_⟩
  intro rec h
  cases hv : pyGet rec "freq" with
  | str s => rw [hv] at h; simp [PyVal.isStr] at h
  | num q => simp only [processTextMessage]; rw [hv]; rfl
  | bool b => simp only [processTextMessage]; rw [hv]; rfl
  | null => simp only [processTextMessage]; rw [hv]; rfl

/-- Witness for `mhz_to_khz_total_nonstring`: a record with no `"freq"`
key produces exactly the `Data` event. -/
theorem mhz_to_khz_total_nonstring_witness :
    processTextMessage (TextMsg.json [("ps", PyVal.str "RADIO1")]) =
      [Update.data [("ps", PyVal.str "RADIO1")]] :=
  mhz_to_khz_total_nonstring.2.2.2 [("ps", PyVal.str "RADIO1")] (by decide)

/-- C1: for a tune command taken from the command queue, `ws.send` is
invoked iff the controller holds a WebSocket reference whose close code
is unset; otherwise the command is discarded (state unchanged, nothing
re-queued) with the undeliverable status `"Text WS not connected, cannot
tune."`; a `ConnectionClosed` raised by the send itself instead produces
`"Text WS closed, cannot send cmd."` and drops the reference. -/
theorem gui_command_send_iff (s : Ctrl) (cmd : String) (o : SendOutcome)
    (hT : startsWithT cmd = true) :
    ((handleGuiCommand s cmd o).2.2 = true ↔
      ∃ ws, s.textWsForCommands = some ws ∧ ws.closeCode = none) ∧
    ((handleGuiCommand s cmd o).2.2 = false →
      (handleGuiCommand s cmd o).2.1 = [Update.status "Text WS not connected, cannot tune."] ∧
      (handleGuiCommand s cmd o).1 = s) ∧
    (o = SendOutcome.connClosed → (handleGuiCommand s cmd o).2.2 = true →
      (handleGuiCommand s cmd o).2.1 = [Update.status "Text WS closed, cannot send cmd."] ∧
      (handleGuiCommand s cmd o).1.textWsForCommands = none) := by
  cases hws : s.textWsForCommands with
  | none => simp [handleGuiCommand, hws, hT]
  | some ws =>
    cases hcc : ws.closeCode with
    | some c => simp [handleGuiCommand, hws, hcc, hT]
    | none =>
      cases o with
      | ok =>
        cases hk : pyIntOfString (dropFirstChar cmd) with
        | none => simp [handleGuiCommand, hws, hcc, hT, hk]
        | some khz => simp [handleGuiCommand, hws, hcc, hT, hk]
      | connClosed => simp [handleGuiCommand, hws, hcc, hT]
      | sendErr m => simp [handleGuiCommand, hws, hcc, hT]

/-- Witness for `gui_command_send_iff`: concrete tune command `"T97500"`
against a controller with no WebSocket reference. -/
theorem gui_command_send_iff_witness :
    (handleGuiCommand initialCtrl "T97500" SendOutcome.ok).2.2 = false ∧
    (handleGuiCommand initialCtrl "T97500" SendOutcome.ok).2.1 =
      [Update.status "Text WS not connected, cannot tune."] := by
  have h := gui_command_send_iff initialCtrl "T97500" SendOutcome.ok (by decide)
  have hfalse : (handleGuiCommand initialCtrl "T97500" SendOutcome.ok).2.2 = false := by decide
  exact ⟨hfalse, (h.2.1 hfalse).1⟩

/-- C4: each reconnect-loop iteration (identical code on both channels)
sleeps for exactly the unexpired remainder of the 5-second retry interval,
measured from the previous attempt's start on the monotonic clock, so
successive attempt starts are always at least 5 seconds apart. -/
theorem reconnect_min_interval (last now : ℚ) (h : last ≤ now) :
    RECONNECT_DELAY_SECONDS ≤ (reconnectIteration last now).attemptStart - last ∧
    (reconnectIteration last now).attemptStart = now + (reconnectIteration last now).sleepFor ∧
    (reconnectIteration last now).sleepFor =
      max 0 (RECONNECT_DELAY_SECONDS - (now - last)) := by
  simp only [reconnectIteration]
  by_cases hlt : now - last < RECONNECT_DELAY_SECONDS
  · rw [if_pos hlt]
    refine ⟨?_, ?_, ?_⟩
    · show RECONNECT_DELAY_SECONDS ≤ now + (RECONNECT_DELAY_SECONDS - (now - last)) - last
      linarith
    · rfl
    · show RECONNECT_DELAY_SECONDS - (now - last) = max 0 (RECONNECT_DELAY_SECONDS - (now - last))
      rw [max_eq_right (le_of_lt (by linarith))]
  · rw [if_neg hlt]
    refine ⟨?_, ?_, ?_⟩
    · show RECONNECT_DELAY_SECONDS ≤ now - last
      linarith
    · show now = now + 0
      ring
    · show (0 : ℚ) = max 0 (RECONNECT_DELAY_SECONDS - (now - last))
      rw [max_eq_left (by linarith)]

/-- Witness for `reconnect_min_interval`: an iteration starting at
monotonic time 0 right after an attempt at time 0 sleeps the full
interval. -/
theorem reconnect_min_interval_witness :
    RECONNECT_DELAY_SECONDS ≤ (reconnectIteration 0 0).attemptStart - 0 ∧
    (reconnectIteration 0 0).attemptStart = 0 + (reconnectIteration 0 0).sleepFor ∧
    (reconnectIteration 0 0).sleepFor = max 0 (RECONNECT_DELAY_SECONDS - (0 - 0)) :=
  reconnect_min_interval 0 0 (le_refl 0)

/-- C6: in the audio inner loop, an observed non-null return code clears
the process handle; for ffplay the inner loop breaks (forcing the
reconnect/respawn cycle), while for ffmpeg only streaming is disabled for
the session and the loop continues. -/
theorem audio_process_exit_policy (s : Ctrl) :
    (∀ (p : Proc) (c : Int), s.isRestreamOnly = false → s.ffplayProc = some p →
      p.returncode = some c →
      (audioProcCheck s).1.ffplayProc = none ∧ (audioProcCheck s).2.2 = true) ∧
    (∀ (p : Proc) (c : Int),
      (s.isRestreamOnly = true ∨ s.ffplayProc = none ∨
        (∃ q, s.ffplayProc = some q ∧ q.returncode = none)) →
      s.streamEnabled = true → s.ffmpegProc = some p → p.returncode = some c →
      (audioProcCheck s).1.ffmpegProc = none ∧
      (audioProcCheck s).1.streamEnabled = false ∧
      (audioProcCheck s).2.2 = false) := by
  constructor
  · intro p c hro hp hrc
    simp [audioProcCheck, hro, hp, hrc]
  · intro p c hplay hse hp hrc
    rcases hplay with hro | hnone | ⟨q, hq, hqrc⟩
    · simp [audioProcCheck, hro, hse, hp, hrc]
    · simp [audioProcCheck, hnone, hse, hp, hrc]
    · cases hro : s.isRestreamOnly with
      | true => simp [audioProcCheck, hro, hse, hp, hrc]
      | false => simp [audioProcCheck, hro, hq, hqrc, hse, hp, hrc]

/-- Witness for `audio_process_exit_policy`: a state where ffplay has
exited with code 1 (handle cleared, loop breaks), and a state where only
ffmpeg has exited (streaming disabled, loop continues). -/
theorem audio_process_exit_policy_witness :
    ((audioProcCheck { initialCtrl with ffplayProc := some ⟨0, some 1, false⟩ }).1.ffplayProc = none ∧
     (audioProcCheck { initialCtrl with ffplayProc := some ⟨0, some 1, false⟩ }).2.2 = true) ∧
    ((audioProcCheck { initialCtrl with ffmpegProc := some ⟨1, some 1, false⟩ }).1.ffmpegProc = none ∧
     (audioProcCheck { initialCtrl with ffmpegProc := some ⟨1, some 1, false⟩ }).1.streamEnabled = false ∧
     (audioProcCheck { initialCtrl with ffmpegProc := some ⟨1, some 1, false⟩ }).2.2 = false) :=
  ⟨(audio_process_exit_policy { initialCtrl with ffplayProc := some ⟨0, some 1, false⟩ }).1
      ⟨0, some 1, false⟩ 1 (by decide) (by decide) (by decide),
   (audio_process_exit_policy { initialCtrl with ffmpegProc := some ⟨1, some 1, false⟩ }).2
      ⟨1, some 1, false⟩ 1 (Or.inr (Or.inl (by decide))) (by decide) (by decide) (by decide)⟩

/-- C7 counterexample: with restream-only mode on, streaming requested
and `ffmpeg` absent, the ffmpeg startup section emits no StreamStatus
update at all (only a Status and an Error update), contradicting the
claimed `StreamStatus("disabled")` emission. -/
theorem ffmpeg_absent_no_streamstatus :
    ((startFfmpegSection { initialCtrl with isRestreamOnly := true }
        SpawnOutcome.fileNotFound).2.1.any Update.isStreamStatus) = false ∧
    (startFfmpegSection { initialCtrl with isRestreamOnly := true }
        SpawnOutcome.fileNotFound).2.1 =
      [Update.status "Starting AAC encoder (ffmpeg)...",
       Update.error "'ffmpeg' not found. Cannot stream."] := by
  exact ⟨by decide, by decide⟩

/-- C7 (amended): when `ffmpeg` is absent while transcoding is requested
in restream-only mode, the controller emits an Error update (but no
StreamStatus update), disables transcoding for the session without
entering global shutdown, and the audio channel proceeds; by contrast a
missing `ffplay` outside restream-only mode clears the running flag and
returns from the task (fatal). -/
theorem ffmpeg_absent_feature_fatal (s : Ctrl)
    (hro : s.isRestreamOnly = true) (hse : s.streamEnabled = true)
    (hr : s.running = true) :
    (startFfmpegSection s SpawnOutcome.fileNotFound).1.streamEnabled = false ∧
    (startFfmpegSection s SpawnOutcome.fileNotFound).1.running = true ∧
    (startFfmpegSection s SpawnOutcome.fileNotFound).2.2 = Flow.proceed ∧
    (startFfmpegSection s SpawnOutcome.fileNotFound).2.1 =
      [Update.status "Starting AAC encoder (ffmpeg)...",
       Update.error "'ffmpeg' not found. Cannot stream."] ∧
    ((startFfmpegSection s SpawnOutcome.fileNotFound).2.1.any Update.isStreamStatus) = false ∧
    (∀ s2 : Ctrl, s2.isRestreamOnly = false →
      (startFfplaySection s2 SpawnOutcome.fileNotFound).1.running = false ∧
      (startFfplaySection s2 SpawnOutcome.fileNotFound).2.2 = Flow.fatalReturn) := by
  refine ⟨?_, ?_, ?_, ?_, ?_, ?_⟩
  · simp [startFfmpegSection, hse]
  · simp [startFfmpegSection, hse, hr]
  · simp [startFfmpegSection, hse]
  · simp [startFfmpegSection, hse]
  · simp [startFfmpegSection, hse, Update.isStreamStatus]
  · intro s2 hro2
    constructor
    · simp [startFfplaySection, hro2]
    · simp [startFfplaySection, hro2]

/-- Witness for `ffmpeg_absent_feature_fatal` at a concrete restream-only
state with streaming requested. -/
theorem ffmpeg_absent_feature_fatal_witness :
    (startFfmpegSection { initialCtrl with isRestreamOnly := true }
        SpawnOutcome.fileNotFound).1.streamEnabled = false ∧
    (startFfmpegSection { initialCtrl with isRestreamOnly := true }
        SpawnOutcome.fileNotFound).1.running = true :=
  ⟨(ffmpeg_absent_feature_fatal { initialCtrl with isRestreamOnly := true }
      (by decide) (by decide) (by decide)).1,
   (ffmpeg_absent_feature_fatal { initialCtrl with isRestreamOnly := true }
      (by decide) (by decide) (by decide)).2.1⟩

lemma putClientChunk_notFull {cap : Nat} {q : List Nat} {c : Nat}
    (h : q.length < cap) : putClientChunk cap q c = q ++ [c] := by
  unfold putClientChunk
  rw [if_pos h]

lemma putClientChunk_full {cap : Nat} {q : List Nat} {c : Nat}
    (h : q.length = cap) (h0 : 0 < cap) :
    putClientChunk cap q c = q.tail ++ [c] := by
  unfold putClientChunk
  rw [if_neg (by omega)]
  rw [if_pos (by simp [List.length_tail]; omega)]

lemma feedChunks_drop {cap : Nat} (h0 : 0 < cap) :
    ∀ (cs q : List Nat), q.length ≤ cap →
      feedChunks cap q cs = (q ++ cs).drop (q.length + cs.length - cap) := by
  intro cs
  induction cs with
  | nil =>
    intro q hq
    simp only [feedChunks, List.foldl_nil, List.append_nil, List.length_nil]
    rw [Nat.add_zero, Nat.sub_eq_zero_of_le hq, List.drop_zero]
  | cons c cs ih =>
    intro q hq
    have hstep : feedChunks cap q (c :: cs) = feedChunks cap (putClientChunk cap q c) cs := by
      simp [feedChunks]
    rw [hstep]
    by_cases hlt : q.length < cap
    · rw [putClientChunk_notFull hlt]
      rw [ih (q ++ [c]) (by simp; omega)]
      have hlist : (q ++ [c]) ++ cs = q ++ (c :: cs) := by simp
      rw [hlist]
      have harith : (q ++ [c]).length + cs.length - cap =
          q.length + (c :: cs).length - cap := by simp; omega
      rw [harith]
    · have heq : q.length = cap := by omega
      rw [putClientChunk_full heq h0]
      cases q with
      | nil => simp at heq; omega
      | cons hd tl =>
        simp only [List.tail_cons]
        rw [ih (tl ++ [c]) (by simp at heq ⊢; omega)]
        have hlist : (tl ++ [c]) ++ cs = tl ++ (c :: cs) := by simp
        rw [hlist]
        have harith : (tl ++ [c]).length + cs.length - cap = cs.length := by
          simp at heq ⊢; omega
        rw [harith]
        have harith2 : (hd :: tl).length + (c :: cs).length - cap = cs.length + 1 := by
          simp at heq ⊢; omega
        rw [harith2]
        rw [List.cons_append, List.drop_succ_cons]

/-- C3: per-chunk relay fan-out to the snapshot of sinks.  A sink below
capacity receives the chunk appended (FIFO); a sink exactly at capacity
has its oldest chunk evicted and the new chunk pushed; in the
still-full-after-eviction branch the chunk is dropped for that sink only;
a never-drained sink that started within capacity retains exactly the
newest capacity-many chunks of everything it was offered; and each sink's
new queue depends only on its own previous queue (per-sink independence
of the snapshot iteration). -/
theorem relay_backpressure :
    (∀ (q : List Nat) (c : Nat), q.length < AAC_CLIENT_QUEUE_MAXSIZE →
      putClientChunk AAC_CLIENT_QUEUE_MAXSIZE q c = q ++ [c]) ∧
    (∀ (q : List Nat) (c : Nat), q.length = AAC_CLIENT_QUEUE_MAXSIZE →
      putClientChunk AAC_CLIENT_QUEUE_MAXSIZE q c = q.tail ++ [c]) ∧
    (∀ (q : List Nat) (c : Nat), AAC_CLIENT_QUEUE_MAXSIZE < q.length →
      putClientChunk AAC_CLIENT_QUEUE_MAXSIZE q c = q.tail) ∧
    (∀ (q cs : List Nat), q.length ≤ AAC_CLIENT_QUEUE_MAXSIZE →
      feedChunks AAC_CLIENT_QUEUE_MAXSIZE q cs =
        (q ++ cs).drop (q.length + cs.length - AAC_CLIENT_QUEUE_MAXSIZE)) ∧
    (∀ (sinks : List (List Nat)) (c : Nat) (i : Nat)
      (h1 : i < sinks.length)
      (h2 : i < (relayChunk AAC_CLIENT_QUEUE_MAXSIZE sinks c).length),
      (relayChunk AAC_CLIENT_QUEUE_MAXSIZE sinks c).get ⟨i, h2⟩ =
        putClientChunk AAC_CLIENT_QUEUE_MAXSIZE (sinks.get ⟨i, h1⟩) c) := by
  refine ⟨?_, ?_, ?_, ?_, ?_⟩
  · intro q c h
    exact putClientChunk_notFull h
  · intro q c h
    exact putClientChunk_full h (by decide)
  · intro q c h
    unfold putClientChunk
    rw [if_neg (by omega)]
    rw [if_neg (by simp [List.length_tail]; omega)]
  · intro q cs hq
    exact feedChunks_drop (by decide) cs q hq
  · intro sinks c i h1 h2
    simp [relayChunk]

/-- Witness for `relay_backpressure`: feeding twelve chunks into an
initially empty, never-drained sink of capacity 10 leaves exactly the
newest ten. -/
theorem relay_backpressure_witness :
    feedChunks AAC_CLIENT_QUEUE_MAXSIZE []
        [1, 2, 3, 4, 5, 6, 7, 8, 9, 10, 11, 12] =
      (([] : List Nat) ++ [1, 2, 3, 4, 5, 6, 7, 8, 9, 10, 11, 12]).drop
        (([] : List Nat).length + [1, 2, 3, 4, 5, 6, 7, 8, 9, 10, 11, 12].length -
          AAC_CLIENT_QUEUE_MAXSIZE) :=
  relay_backpressure.2.2.2.1 [] [1, 2, 3, 4, 5, 6, 7, 8, 9, 10, 11, 12] (by decide)

lemma processTextMessage_no_closed (m : TextMsg) :
    Update.closed ∉ processTextMessage m := by
  cases m with
  | malformed => simp [processTextMessage]
  | json rec =>
    simp only [processTextMessage]
    cases mhz_to_khz (pyGet rec "freq") with
    | some khz => simp
    | none => simp

lemma textWsIteration_no_closed (s : Ctrl) (o : TextConnOutcome) :
    Update.closed ∉ (textWsIteration s o).2.1 := by
  cases o with
  | recvEnd msgs =>
    simp only [textWsIteration, retryUpd, List.mem_append, List.mem_cons]
    intro hmem
    rcases hmem with (((h | h) | h) | h)
    · simp at h
    · simp at h
    · obtain ⟨m, _, hm⟩ := List.mem_flatMap.mp h
      exact processTextMessage_no_closed m hm
    · split at h <;> simp at h
  | recvClosed msgs code reason =>
    simp only [textWsIteration, retryUpd, List.mem_append, List.mem_cons]
    intro hmem
    rcases hmem with ((((h | h) | h) | h) | h)
    · simp at h
    · simp at h
    · obtain ⟨m, _, hm⟩ := List.mem_flatMap.mp h
      exact processTextMessage_no_closed m hm
    · simp at h
    · split at h <;> simp at h
  | invalidURI => simp [textWsIteration]
  | refused => simp only [textWsIteration, retryUpd]; split <;> simp
  | timedOut => simp only [textWsIteration, retryUpd]; split <;> simp
  | osError m => simp only [textWsIteration, retryUpd]; split <;> simp
  | otherError m => simp only [textWsIteration, retryUpd]; split <;> simp
  | cancelled => simp [textWsIteration]

lemma textWsLoop_no_closed (os : List TextConnOutcome) :
    ∀ s : Ctrl, Update.closed ∉ (textWsLoop s os).updates := by
  induction os with
  | nil => intro s; simp [textWsLoop]
  | cons o os ih =>
    intro s
    simp only [textWsLoop]
    by_cases hr : s.running
    · rw [if_pos hr]
      by_cases hc : (textWsIteration s o).2.2
      · rw [if_pos hc]
        simp only [List.mem_append]
        intro hmem
        rcases hmem with h | h
        · exact textWsIteration_no_closed s o h
        · exact ih (textWsIteration s o).1 h
      · rw [if_neg hc]
        exact textWsIteration_no_closed s o
    · rw [if_neg hr]
      simp

lemma textWsIteration_cont (s : Ctrl) (o : TextConnOutcome) :
    (textWsIteration s o).2.2 = iterContinues o := by
  cases o <;> rfl

lemma textWsIteration_running (s : Ctrl) (o : TextConnOutcome)
    (h : iterContinues o = true) :
    (textWsIteration s o).1.running = s.running := by
  cases o <;> first | rfl | simp [iterContinues] at h

lemma textWsLoop_pre (post : List TextConnOutcome) :
    ∀ (pre : List TextConnOutcome) (s : Ctrl), s.running = true →
      (∀ o ∈ pre, iterContinues o = true) →
      (textWsLoop s (pre ++ TextConnOutcome.invalidURI :: post)).state.running = false ∧
      (textWsLoop s (pre ++ TextConnOutcome.invalidURI :: post)).attempts = pre.length + 1 := by
  intro pre
  induction pre with
  | nil =>
    intro s hrun _
    simp only [List.nil_append, textWsLoop]
    rw [if_pos hrun]
    rw [if_neg (by rw [textWsIteration_cont]; simp [iterContinues])]
    constructor
    · simp [textWsIteration]
    · rfl
  | cons o pre ih =>
    intro s hrun hpre
    have hco : iterContinues o = true := hpre o (List.mem_cons_self o pre)
    simp only [List.cons_append, textWsLoop]
    rw [if_pos hrun]
    rw [if_pos (by rw [textWsIteration_cont]; exact hco)]
    have hrun' : (textWsIteration s o).1.running = true := by
      rw [textWsIteration_running s o hco]; exact hrun
    have := ih (textWsIteration s o).1 hrun'
      (fun o' ho' => hpre o' (List.mem_cons_of_mem o ho'))
    exact ⟨this.1, by simp [this.2]⟩

/-- C5: a malformed connection target (`InvalidURI` raised by the connect
call) clears the shared running flag at once and exits the channel loop
with no further connection attempts (later outcomes are never consumed);
the controller thread then emits the terminal `closed` event exactly
once, as the last event of the run. -/
theorem invalid_uri_fatal_closed_once (s : Ctrl)
    (pre post : List TextConnOutcome) (others : List Update)
    (hrun : s.running = true)
    (hpre : ∀ o ∈ pre, iterContinues o = true)
    (hoth : Update.closed ∉ others) :
    (textWsLoop s (pre ++ TextConnOutcome.invalidURI :: post)).state.running = false ∧
    (textWsLoop s (pre ++ TextConnOutcome.invalidURI :: post)).attempts = pre.length + 1 ∧
    (controllerRunUpdates
      ((textWsLoop s (pre ++ TextConnOutcome.invalidURI :: post)).updates ++ others)).count
        Update.closed = 1 ∧
    (controllerRunUpdates
      ((textWsLoop s (pre ++ TextConnOutcome.invalidURI :: post)).updates ++ others)).getLast? =
        some Update.closed := by
  obtain ⟨h1, h2⟩ := textWsLoop_pre post pre s hrun hpre
  refine ⟨h1, h2, ?_, ?_⟩
  · unfold controllerRunUpdates
    rw [List.count_append, List.count_append]
    rw [List.count_eq_zero.mpr (textWsLoop_no_closed _ s)]
    rw [List.count_eq_zero.mpr hoth]
    simp
  · unfold controllerRunUpdates
    exact List.getLast?_concat _

/-- Witness for `invalid_uri_fatal_closed_once`: one refused attempt,
then an invalid URI, with no further outcomes and no other components'
updates. -/
theorem invalid_uri_fatal_closed_once_witness :
    (textWsLoop initialCtrl
      ([TextConnOutcome.refused] ++ TextConnOutcome.invalidURI :: [])).state.running = false ∧
    (textWsLoop initialCtrl
      ([TextConnOutcome.refused] ++ TextConnOutcome.invalidURI :: [])).attempts =
        [TextConnOutcome.refused].length + 1 ∧
    (controllerRunUpdates
      ((textWsLoop initialCtrl
        ([TextConnOutcome.refused] ++ TextConnOutcome.invalidURI :: [])).updates ++ [])).count
          Update.closed = 1 ∧
    (controllerRunUpdates
      ((textWsLoop initialCtrl
        ([TextConnOutcome.refused] ++ TextConnOutcome.invalidURI :: [])).updates ++ [])).getLast? =
        some Update.closed :=
  invalid_uri_fatal_closed_once initialCtrl [TextConnOutcome.refused] [] []
    (by decide) (by intro o ho; simp at ho; rw [ho]; rfl) (by simp)

lemma playWriteTarget_eq {s : Ctrl} {p : Proc} (h : playWriteTarget s = some p) :
    s.ffplayProc = some p := by
  unfold playWriteTarget at h
  cases hro : s.isRestreamOnly with
  | true => simp [hro] at h
  | false =>
    simp only [hro] at h
    cases hq : s.ffplayProc with
    | none => simp [hq] at h
    | some q =>
      cases hc : q.stdinClosing with
      | true => simp [hq, hc] at h
      | false =>
        simp [hq, hc] at h
        rw [h]

lemma encWriteTarget_eq {s : Ctrl} {p : Proc} (h : encWriteTarget s = some p) :
    s.ffmpegProc = some p := by
  unfold encWriteTarget at h
  cases hse : s.streamEnabled with
  | false => simp [hse] at h
  | true =>
    simp only [hse] at h
    cases hq : s.ffmpegProc with
    | none => simp [hq] at h
    | some q =>
      cases hc : q.stdinClosing with
      | true => simp [hq, hc] at h
      | false =>
        simp [hq, hc] at h
        rw [h]

lemma dropPlay_inv {s : Ctrl} (h : ctrlInv s) : ctrlInv { s with ffplayProc := none } := by
  obtain ⟨_, h2, h3, _⟩ := h
  refine ⟨?_, h2, h3, ?_⟩
  · intro p hp; simp at hp
  · intro p q hp; simp at hp

lemma dropEnc_inv {s : Ctrl} (h : ctrlInv s) : ctrlInv { s with ffmpegProc := none } := by
  obtain ⟨h1, _, h3, _⟩ := h
  refine ⟨h1, ?_, h3, ?_⟩
  · intro p hp; simp at hp
  · intro p q _ hq; simp at hq

lemma killFfplayStep_inv {s : Ctrl} (h : ctrlInv s) : ctrlInv (killFfplayStep s) := by
  unfold killFfplayStep
  cases hp : s.ffplayProc with
  | none => exact h
  | some p =>
    show ctrlInv { s with ffplayProc := none, terminated := p.pid :: s.terminated }
    obtain ⟨h1, h2, h3, h4⟩ := h
    have hpp := h1 p hp
    refine ⟨?_, ?_, ?_, ?_⟩
    · intro q hq; simp at hq
    · intro q hq
      have hq' : s.ffmpegProc = some q := hq
      obtain ⟨hq1, hq2⟩ := h2 q hq'
      refine ⟨?_, hq2⟩
      intro hmem
      rcases List.mem_cons.mp hmem with heq | hmem'
      · exact (h4 p q hp hq') heq.symm
      · exact hq1 hmem'
    · intro pid hmem
      rcases List.mem_cons.mp hmem with heq | hmem'
      · rw [heq]; exact hpp.2
      · exact h3 pid hmem'
    · intro q r hq; simp at hq

lemma killFfmpegStep_inv {s : Ctrl} (h : ctrlInv s) : ctrlInv (killFfmpegStep s) := by
  unfold killFfmpegStep
  cases hp : s.ffmpegProc with
  | none => exact h
  | some p =>
    show ctrlInv { s with ffmpegProc := none, terminated := p.pid :: s.terminated }
    obtain ⟨h1, h2, h3, h4⟩ := h
    have hpp := h2 p hp
    refine ⟨?_, ?_, ?_, ?_⟩
    · intro q hq
      have hq' : s.ffplayProc = some q := hq
      obtain ⟨hq1, hq2⟩ := h1 q hq'
      refine ⟨?_, hq2⟩
      intro hmem
      rcases List.mem_cons.mp hmem with heq | hmem'
      · exact (h4 q p hq' hp) heq
      · exact hq1 hmem'
    · intro q hq; simp at hq
    · intro pid hmem
      rcases List.mem_cons.mp hmem with heq | hmem'
      · rw [heq]; exact hpp.2
      · exact h3 pid hmem'
    · intro q r _ hr; simp at hr

lemma spawnPlayFresh_inv {s : Ctrl} (h : ctrlInv s) :
    ctrlInv { s with ffplayProc := some ⟨s.nextPid, none, false⟩,
                     nextPid := s.nextPid + 1 } := by
  obtain ⟨_, h2, h3, _⟩ := h
  refine ⟨?_, ?_, ?_, ?_⟩
  · intro p hp
    have hp' : some (⟨s.nextPid, none, false⟩ : Proc) = some p := hp
    injection hp' with hp''
    have hpid : p.pid = s.nextPid := by rw [← hp'']
    constructor
    · show p.pid ∉ s.terminated
      rw [hpid]
      intro hmem
      have := h3 _ hmem
      omega
    · show p.pid < s.nextPid + 1
      omega
  · intro p hp
    have hp' : s.ffmpegProc = some p := hp
    obtain ⟨ha, hb⟩ := h2 p hp'
    refine ⟨ha, ?_⟩
    show p.pid < s.nextPid + 1
    omega
  · intro pid hmem
    have hmem' : pid ∈ s.terminated := hmem
    have := h3 pid hmem'
    show pid < s.nextPid + 1
    omega
  · intro p q hp hq
    have hp' : some (⟨s.nextPid, none, false⟩ : Proc) = some p := hp
    injection hp' with hp''
    have hpid : p.pid = s.nextPid := by rw [← hp'']
    have hq' : s.ffmpegProc = some q := hq
    have hb := (h2 q hq').2
    show p.pid ≠ q.pid
    omega

lemma spawnEncFresh_inv {s : Ctrl} (h : ctrlInv s) :
    ctrlInv { s with ffmpegProc := some ⟨s.nextPid, none, false⟩,
                     nextPid := s.nextPid + 1 } := by
  obtain ⟨h1, _, h3, _⟩ := h
  refine ⟨?_, ?_, ?_, ?_⟩
  · intro p hp
    have hp' : s.ffplayProc = some p := hp
    obtain ⟨ha, hb⟩ := h1 p hp'
    refine ⟨ha, ?_⟩
    show p.pid < s.nextPid + 1
    omega
  · intro p hp
    have hp' : some (⟨s.nextPid, none, false⟩ : Proc) = some p := hp
    injection hp' with hp''
    have hpid : p.pid = s.nextPid := by rw [← hp'']
    constructor
    · show p.pid ∉ s.terminated
      rw [hpid]
      intro hmem
      have := h3 _ hmem
      omega
    · show p.pid < s.nextPid + 1
      omega
  · intro pid hmem
    have hmem' : pid ∈ s.terminated := hmem
    have := h3 pid hmem'
    show pid < s.nextPid + 1
    omega
  · intro p q hp hq
    have hp' : s.ffplayProc = some p := hp
    have hb := (h1 p hp').2
    have hq' : some (⟨s.nextPid, none, false⟩ : Proc) = some q := hq
    injection hq' with hq''
    have hqid : q.pid = s.nextPid := by rw [← hq'']
    show p.pid ≠ q.pid
    omega

lemma writeFfmpegPart_inv {s : Ctrl} (h : ctrlInv s) (oEnc : WriteOutcome)
    (acc : List Nat) : ctrlInv (writeFfmpegPart s oEnc acc).1 := by
  unfold writeFfmpegPart
  cases ht : encWriteTarget s with
  | none => exact h
  | some p =>
    have hp := encWriteTarget_eq ht
    cases oEnc with
    | ok => exact h
    | pipeErr m =>
      show ctrlInv { s with streamEnabled := false, ffmpegProc := none, terminated := p.pid :: s.terminated }
      obtain ⟨h1, h2, h3, h4⟩ := h
      have hpp := h2 p hp
      refine ⟨?_, ?_, ?_, ?_⟩
      · intro q hq
        have hq' : s.ffplayProc = some q := hq
        obtain ⟨hq1, hq2⟩ := h1 q hq'
        refine ⟨?_, hq2⟩
        intro hmem
        rcases List.mem_cons.mp hmem with heq | hmem'
        · exact (h4 q p hq' hp) heq
        · exact hq1 hmem'
      · intro q hq; simp at hq
      · intro pid hmem
        rcases List.mem_cons.mp hmem with heq | hmem'
        · rw [heq]; exact hpp.2
        · exact h3 pid hmem'
      · intro q r _ hr; simp at hr

lemma handleGuiCommand_state (s : Ctrl) (cmd : String) (o : SendOutcome) :
    (handleGuiCommand s cmd o).1 = s ∨
    (handleGuiCommand s cmd o).1 = { s with textWsForCommands := none } := by
  unfold handleGuiCommand
  repeat' split
  all_goals first | exact Or.inl rfl | exact Or.inr rfl

lemma stopSequence_state (s : Ctrl) (tp te : TermOutcome) :
    (stopSequence s tp te).1 =
      killFfmpegStep (killFfplayStep { s with running := false }) := by
  unfold stopSequence
  split <;> rfl

lemma ctrlStep_inv (s : Ctrl) (e : CtrlEvent) (h : ctrlInv s) :
    ctrlInv (ctrlStep s e).state := by
  cases e with
  | killPlay => exact killFfplayStep_inv h
  | killEnc => exact killFfmpegStep_inv h
  | stopCall tp te =>
    show ctrlInv (stopSequence s tp te).1
    rw [stopSequence_state]
    exact killFfmpegStep_inv
      (killFfplayStep_inv (show ctrlInv { s with running := false } from h))
  | textIter o =>
    simp only [ctrlStep]
    split
    · cases o <;> exact h
    · exact h
  | guiCmd cmd o =>
    simp only [ctrlStep]
    split
    · rcases handleGuiCommand_state s cmd o with heq | heq <;> rw [heq]
      · exact h
      · exact h
    · exact h
  | spawnPlay o =>
    simp only [ctrlStep]
    split
    · simp only [startFfplaySection]
      by_cases hro : s.isRestreamOnly = true
      · rw [if_pos hro]; exact dropPlay_inv h
      · rw [if_neg hro]
        cases o with
        | ok => exact spawnPlayFresh_inv h
        | fileNotFound => exact dropPlay_inv h
        | spawnErr m => exact dropPlay_inv h
    · exact h
  | spawnEnc o =>
    simp only [ctrlStep]
    split
    · simp only [startFfmpegSection]
      by_cases hse : s.streamEnabled = true
      · rw [if_pos hse]
        cases o with
        | ok => exact spawnEncFresh_inv h
        | fileNotFound => exact dropEnc_inv h
        | spawnErr m => exact dropEnc_inv h
      · rw [if_neg hse]; exact dropEnc_inv h
    · exact h
  | procCheck =>
    simp only [ctrlStep]
    split
    · simp only [audioProcCheck]
      split
      · exact dropPlay_inv h
      · split
        · exact dropEnc_inv h
        · exact h
    · exact h
  | writeChunk op oe =>
    simp only [ctrlStep]
    split
    · simp only [writeAudioChunk]
      split
      · cases op with
        | pipeErr m => exact h
        | ok => exact writeFfmpegPart_inv h oe _
      · exact writeFfmpegPart_inv h oe _
    · exact h
  | monitor t r =>
    simp only [ctrlStep]
    split
    · cases r with
      | cancelled => exact h
      | completed => exact h
      | exc e =>
        simp only [mainAsyncIter]
        split
        · exact h
        · split
          · exact h
          · split
            all_goals first | exact h | (split <;> exact h)
    · exact h

lemma ctrlStep_writes (s : Ctrl) (e : CtrlEvent) (h : ctrlInv s) :
    ∀ pid ∈ (ctrlStep s e).writes, pid ∉ s.terminated := by
  obtain ⟨h1, h2, _, _⟩ := h
  have hffm : ∀ (oe : WriteOutcome) (acc : List Nat),
      (∀ x ∈ acc, x ∉ s.terminated) →
      ∀ pid ∈ (writeFfmpegPart s oe acc).2.2, pid ∉ s.terminated := by
    intro oe acc hacc pid hmem
    unfold writeFfmpegPart at hmem
    cases ht : encWriteTarget s with
    | none => rw [ht] at hmem; exact hacc pid hmem
    | some p =>
      rw [ht] at hmem
      have hp := encWriteTarget_eq ht
      have hnot : p.pid ∉ s.terminated := (h2 p hp).1
      cases oe with
      | ok =>
        rcases List.mem_append.mp hmem with hx | hx
        · exact hacc pid hx
        · simp at hx; rw [hx]; exact hnot
      | pipeErr m =>
        rcases List.mem_append.mp hmem with hx | hx
        · exact hacc pid hx
        · simp at hx; rw [hx]; exact hnot
  cases e with
  | writeChunk op oe =>
    simp only [ctrlStep]
    split
    · intro pid hmem
      simp only [writeAudioChunk] at hmem
      cases ht : playWriteTarget s with
      | none => rw [ht] at hmem; exact hffm oe [] (by simp) pid hmem
      | some p =>
        rw [ht] at hmem
        have hp := playWriteTarget_eq ht
        have hnot : p.pid ∉ s.terminated := (h1 p hp).1
        cases op with
        | pipeErr m => simp at hmem; rw [hmem]; exact hnot
        | ok =>
          refine hffm oe [p.pid] ?_ pid hmem
          intro x hx
          simp at hx
          rw [hx]
          exact hnot
    · intro pid hmem; simp at hmem
  | textIter o => simp only [ctrlStep]; split <;> (intro pid hmem; simp at hmem)
  | guiCmd cmd o => simp only [ctrlStep]; split <;> (intro pid hmem; simp at hmem)
  | spawnPlay o => simp only [ctrlStep]; split <;> (intro pid hmem; simp at hmem)
  | spawnEnc o => simp only [ctrlStep]; split <;> (intro pid hmem; simp at hmem)
  | procCheck => simp only [ctrlStep]; split <;> (intro pid hmem; simp at hmem)
  | monitor t r => simp only [ctrlStep]; split <;> (intro pid hmem; simp at hmem)
  | killPlay => intro pid hmem; simp [ctrlStep] at hmem
  | killEnc => intro pid hmem; simp [ctrlStep] at hmem
  | stopCall tp te => intro pid hmem; simp [ctrlStep] at hmem

lemma writesTerminated_false (es : List CtrlEvent) :
    ∀ s : Ctrl, ctrlInv s → writesTerminated s es = false := by
  induction es with
  | nil => intro s _; rfl
  | cons e es ih =>
    intro s h
    simp only [writesTerminated]
    have hw : (ctrlStep s e).writes.any (fun pid => decide (pid ∈ s.terminated)) = false := by
      simp only [List.any_eq_false, decide_eq_true_eq]
      exact ctrlStep_writes s e h
    rw [hw, ih (ctrlStep s e).state (ctrlStep_inv s e h)]
    rfl

/-- C8 (amended): (i) starting from any state satisfying the pid-bookkeeping
invariant (which the fresh controller does), no event sequence ever
writes to the stdin of a process that was already marked for termination
— the kill routine clears the controller's reference and writes only go
to referenced processes; (ii) `stop()` on a running controller first
performs the grace phase ending in the 7-second thread join and then
invokes the kill routine on every still-alive referenced process: stdin
close plus SIGTERM, escalating to SIGKILL only when the terminate
attempt itself raises (no unconditional force-kill). -/
theorem terminated_never_written :
    (∀ (s : Ctrl) (es : List CtrlEvent), ctrlInv s → writesTerminated s es = false) ∧
    ctrlInv initialCtrl ∧
    (∀ (s : Ctrl) (tp te : TermOutcome) (p : Proc),
      s.running = true → s.ffplayProc = some p → p.returncode = none →
      (stopSequence s tp te).2.1 =
        [StopAction.putSentinel, StopAction.requestLoopStop, StopAction.joinThread 7] ∧
      StopAction.closeStdin p.pid ∈ (stopSequence s tp te).2.2 ∧
      StopAction.sigterm p.pid ∈ (stopSequence s tp te).2.2 ∧
      (tp = TermOutcome.termErr → StopAction.sigkill p.pid ∈ (stopSequence s tp te).2.2)) ∧
    (∀ (s : Ctrl) (tp te : TermOutcome) (p : Proc),
      s.running = true → s.ffmpegProc = some p → p.returncode = none →
      StopAction.sigterm p.pid ∈ (stopSequence s tp te).2.2 ∧
      (te = TermOutcome.termErr → StopAction.sigkill p.pid ∈ (stopSequence s tp te).2.2)) := by
  refine ⟨fun s es h => writesTerminated_false es s h, ?_, ?_, ?_⟩
  · refine ⟨?_, ?_, ?_, ?_⟩
    · intro p hp; simp [initialCtrl] at hp
    · intro p hp; simp [initialCtrl] at hp
    · intro pid hmem; simp [initialCtrl] at hmem
    · intro p q hp; simp [initialCtrl] at hp
  · intro s tp te p hr hp hrc
    have hacts : (stopSequence s tp te).2.1 =
        [StopAction.putSentinel, StopAction.requestLoopStop, StopAction.joinThread 7] := by
      unfold stopSequence
      rw [if_pos hr]
    have hkills : (stopSequence s tp te).2.2 =
        killProcessActions s.ffplayProc tp ++ killProcessActions s.ffmpegProc te := by
      unfold stopSequence
      rw [if_pos hr]
    have hsub : killProcessActions s.ffplayProc tp = killProcessActions (some p) tp := by
      rw [hp]
    refine ⟨hacts, ?_, ?_, ?_⟩
    · rw [hkills, hsub]
      apply List.mem_append_left
      cases tp <;> simp [killProcessActions, hrc]
    · rw [hkills, hsub]
      apply List.mem_append_left
      cases tp <;> simp [killProcessActions, hrc]
    · intro htp
      subst htp
      rw [hkills, hsub]
      apply List.mem_append_left
      simp [killProcessActions, hrc]
  · intro s tp te p hr hp hrc
    have hkills : (stopSequence s tp te).2.2 =
        killProcessActions s.ffplayProc tp ++ killProcessActions s.ffmpegProc te := by
      unfold stopSequence
      rw [if_pos hr]
    have hsub : killProcessActions s.ffmpegProc te = killProcessActions (some p) te := by
      rw [hp]
    refine ⟨?_, ?_⟩
    · rw [hkills, hsub]
      apply List.mem_append_right
      cases te <;> simp [killProcessActions, hrc]
    · intro hte
      subst hte
      rw [hkills, hsub]
      apply List.mem_append_right
      simp [killProcessActions, hrc]

/-- A running controller holding one live ffplay process (pid 0). -/
def aliveProcCtrl : Ctrl :=
  { initialCtrl with ffplayProc := some ⟨0, none, false⟩, nextPid := 1 }

/-- C8 counterexample: `stop()` on a controller with a still-alive
process does not attempt a force-kill (SIGKILL) of it: the kill phase is
exactly stdin close plus SIGTERM when the terminate call does not raise,
so a process that survives the grace window by ignoring SIGTERM is never
force-killed. -/
theorem stop_never_sigkills_on_clean_terminate :
    aliveProcCtrl.running = true ∧
    aliveProcCtrl.ffplayProc = some ⟨0, none, false⟩ ∧
    (stopSequence aliveProcCtrl TermOutcome.ok TermOutcome.ok).2.2 =
      [StopAction.closeStdin 0, StopAction.sigterm 0] ∧
    StopAction.sigkill 0 ∉ (stopSequence aliveProcCtrl TermOutcome.ok TermOutcome.ok).2.2 := by
  refine ⟨rfl, rfl, by decide, by decide⟩

/-- Witness for `terminated_never_written`: a concrete trace that spawns,
writes, kills and stops never writes to a terminated process. -/
theorem terminated_never_written_witness :
    writesTerminated initialCtrl
      [CtrlEvent.spawnPlay SpawnOutcome.ok,
       CtrlEvent.writeChunk WriteOutcome.ok WriteOutcome.ok,
       CtrlEvent.killPlay,
       CtrlEvent.writeChunk WriteOutcome.ok WriteOutcome.ok,
       CtrlEvent.stopCall TermOutcome.ok TermOutcome.ok] = false :=
  terminated_never_written.1 initialCtrl
    [CtrlEvent.spawnPlay SpawnOutcome.ok,
     CtrlEvent.writeChunk WriteOutcome.ok WriteOutcome.ok,
     CtrlEvent.killPlay,
     CtrlEvent.writeChunk WriteOutcome.ok WriteOutcome.ok,
     CtrlEvent.stopCall TermOutcome.ok TermOutcome.ok]
    (by
      refine ⟨?_, ?_, ?_, ?_⟩
      · intro p hp; simp [initialCtrl] at hp
      · intro p hp; simp [initialCtrl] at hp
      · intro pid hmem; simp [initialCtrl] at hmem
      · intro p q hp hq; simp [initialCtrl] at hp)

lemma killFfplayStep_running (s : Ctrl) : (killFfplayStep s).running = s.running := by
  unfold killFfplayStep
  cases hp : s.ffplayProc <;> rfl

lemma killFfmpegStep_running (s : Ctrl) : (killFfmpegStep s).running = s.running := by
  unfold killFfmpegStep
  cases hp : s.ffmpegProc <;> rfl

lemma killFfplayStep_nextPid (s : Ctrl) : (killFfplayStep s).nextPid = s.nextPid := by
  unfold killFfplayStep
  cases hp : s.ffplayProc <;> rfl

lemma killFfmpegStep_nextPid (s : Ctrl) : (killFfmpegStep s).nextPid = s.nextPid := by
  unfold killFfmpegStep
  cases hp : s.ffmpegProc <;> rfl

lemma ctrlStep_running_false (s : Ctrl) (e : CtrlEvent) (h : s.running = false) :
    (ctrlStep s e).state.running = false := by
  cases e with
  | killPlay =>
    show (killFfplayStep s).running = false
    rw [killFfplayStep_running]; exact h
  | killEnc =>
    show (killFfmpegStep s).running = false
    rw [killFfmpegStep_running]; exact h
  | stopCall tp te =>
    show (stopSequence s tp te).1.running = false
    rw [stopSequence_state, killFfmpegStep_running, killFfplayStep_running]
  | textIter o => simp only [ctrlStep]; rw [if_neg (by simp [h])]; exact h
  | guiCmd cmd o => simp only [ctrlStep]; rw [if_neg (by simp [h])]; exact h
  | spawnPlay o => simp only [ctrlStep]; rw [if_neg (by simp [h])]; exact h
  | spawnEnc o => simp only [ctrlStep]; rw [if_neg (by simp [h])]; exact h
  | procCheck => simp only [ctrlStep]; rw [if_neg (by simp [h])]; exact h
  | writeChunk op oe => simp only [ctrlStep]; rw [if_neg (by simp [h])]; exact h
  | monitor t r => simp only [ctrlStep]; rw [if_neg (by simp [h])]; exact h

lemma ctrlStep_nextPid_false (s : Ctrl) (e : CtrlEvent) (h : s.running = false) :
    (ctrlStep s e).state.nextPid = s.nextPid := by
  cases e with
  | killPlay =>
    show (killFfplayStep s).nextPid = s.nextPid
    rw [killFfplayStep_nextPid]
  | killEnc =>
    show (killFfmpegStep s).nextPid = s.nextPid
    rw [killFfmpegStep_nextPid]
  | stopCall tp te =>
    show (stopSequence s tp te).1.nextPid = s.nextPid
    rw [stopSequence_state, killFfmpegStep_nextPid, killFfplayStep_nextPid]
  | textIter o => simp only [ctrlStep]; rw [if_neg (by simp [h])]
  | guiCmd cmd o => simp only [ctrlStep]; rw [if_neg (by simp [h])]
  | spawnPlay o => simp only [ctrlStep]; rw [if_neg (by simp [h])]
  | spawnEnc o => simp only [ctrlStep]; rw [if_neg (by simp [h])]
  | procCheck => simp only [ctrlStep]; rw [if_neg (by simp [h])]
  | writeChunk op oe => simp only [ctrlStep]; rw [if_neg (by simp [h])]
  | monitor t r => simp only [ctrlStep]; rw [if_neg (by simp [h])]

lemma ctrlRun_running_false (es : List CtrlEvent) :
    ∀ s : Ctrl, s.running = false → (ctrlRun s es).running = false := by
  induction es with
  | nil => intro s h; exact h
  | cons e es ih =>
    intro s h
    exact ih (ctrlStep s e).state (ctrlStep_running_false s e h)

lemma ctrlRun_nextPid_false (es : List CtrlEvent) :
    ∀ s : Ctrl, s.running = false → (ctrlRun s es).nextPid = s.nextPid := by
  induction es with
  | nil => intro s _; rfl
  | cons e es ih =>
    intro s h
    have h' := ctrlStep_running_false s e h
    rw [show ctrlRun s (e :: es) = ctrlRun (ctrlStep s e).state es from rfl]
    rw [ih (ctrlStep s e).state h']
    exact ctrlStep_nextPid_false s e h

/-- C9: global shutdown is one-way.  No controller event ever re-sets
the shared running flag: over any event sequence starting from a stopped
state the flag stays cleared and the pid counter never advances (no
process is spawned); the supervisor's restart branch is guarded by the
flag (no task respawned once it is cleared); a Fatal classification
clears the flag and respawns nothing; and a channel loop entered with
the flag cleared performs no connection attempt. -/
theorem shutdown_one_way :
    (∀ (s : Ctrl) (e : CtrlEvent), s.running = false →
      (ctrlStep s e).state.running = false) ∧
    (∀ (s : Ctrl) (es : List CtrlEvent), s.running = false →
      (ctrlRun s es).running = false ∧ (ctrlRun s es).nextPid = s.nextPid) ∧
    (∀ (s : Ctrl) (t : TaskName) (r : TaskResult), s.running = false →
      (ctrlStep s (CtrlEvent.monitor t r)).restarts = []) ∧
    (∀ (s : Ctrl) (t : TaskName) (e : ExcKind),
      s.running = true → mainIsFatal s t e = true →
      (mainAsyncIter s t (TaskResult.exc e)).1.running = false ∧
      (mainAsyncIter s t (TaskResult.exc e)).2.2 = []) ∧
    (∀ (s : Ctrl) (os : List TextConnOutcome), s.running = false →
      textWsLoop s os = ⟨s, [], 0⟩) := by
  refine ⟨ctrlStep_running_false, ?_, ?_, ?_, ?_⟩
  · intro s es h
    exact ⟨ctrlRun_running_false es s h, ctrlRun_nextPid_false es s h⟩
  · intro s t r h
    simp only [ctrlStep]
    rw [if_neg (by simp [h])]
  · intro s t e hr hf
    by_cases hsp : (t == TaskName.streamSrv && e == ExcKind.addrInUse) = true
    · exfalso
      simp only [Bool.and_eq_true, beq_iff_eq] at hsp
      obtain ⟨ht, he⟩ := hsp
      subst ht
      subst he
      simp [mainIsFatal] at hf
    · simp only [mainAsyncIter]
      rw [if_neg hsp, if_pos hf]
      exact ⟨rfl, rfl⟩
  · intro s os h
    cases os with
    | nil => rfl
    | cons o os =>
      simp only [textWsLoop]
      rw [if_neg (by simp [h])]

/-- Witness for `shutdown_one_way`: from a stopped controller, a trace
that tries to reconnect, spawn and restart leaves the flag cleared and
allocates no pid. -/
theorem shutdown_one_way_witness :
    (ctrlRun { initialCtrl with running := false }
      [CtrlEvent.textIter TextConnOutcome.refused,
       CtrlEvent.spawnPlay SpawnOutcome.ok,
       CtrlEvent.monitor TaskName.txtWS (TaskResult.exc (ExcKind.otherExc "boom"))]).running
        = false ∧
    (ctrlRun { initialCtrl with running := false }
      [CtrlEvent.textIter TextConnOutcome.refused,
       CtrlEvent.spawnPlay SpawnOutcome.ok,
       CtrlEvent.monitor TaskName.txtWS (TaskResult.exc (ExcKind.otherExc "boom"))]).nextPid
        = { initialCtrl with running := false }.nextPid :=
  shutdown_one_way.2.1 { initialCtrl with running := false }
    [CtrlEvent.textIter TextConnOutcome.refused,
     CtrlEvent.spawnPlay SpawnOutcome.ok,
     CtrlEvent.monitor TaskName.txtWS (TaskResult.exc (ExcKind.otherExc "boom"))]
    (by rfl)

end FmDxClient
